import Mathlib

/-
Shallow embedding of `client/httpclient.go` (package client): construction of a
retrying HTTP client from a target URL, with three transport strategies
(unix domain socket, plain HTTP, TLS) and trust-pool assembly.

Filesystem, certificate parsing, and TLS key-pair loading are effects of the
Go standard library, not of this package; they are modelled as an explicit
environment `Env` of pure functions, and each package function takes the
environment it reads.  Go `time.Duration` values are int64 nanoseconds and are
modelled as `Int` (with explicit wrapping where Go arithmetic can overflow);
the `readTimeoutSeconds uint64` parameter is modelled as `Nat` reduced mod
2^64 at use.
-/

namespace GitlabClient

/-- Result of `os.Stat`: success, the `os.IsNotExist` class of errors, or any
other error (carrying its message). -/
inductive StatResult where
  | ok : StatResult
  | notExist : StatResult
  | otherError (msg : String) : StatResult
deriving DecidableEq, Repr

/-- One entry of an `os.ReadDir` listing: its name and whether it is a directory. -/
structure DirEntry where
  name : String
  isDir : Bool
deriving DecidableEq, Repr

/-- The arguments a dialer hands to `net.Dialer.DialContext`: the context it
was given (modelled by an identifier), the network string, and the address. -/
structure DialArgs where
  ctx : Nat
  network : String
  address : String
deriving DecidableEq, Repr

/-- The fields of `crypto/tls.Config` that the package sets: the root CA pool
(a list of certificates), the minimum TLS version, and the client-certificate
list. Certificates are modelled as opaque strings. -/
structure TLSConfig where
  rootCAs : List String
  minVersion : Nat
  certificates : List String
deriving DecidableEq, Repr

/-- The fields of `net/http.Transport` this package sets: an optional custom
`DialContext` function and an optional `TLSClientConfig`. A `none` field is
Go's zero value. -/
structure Transport where
  dialContext : Option (Nat → String → String → DialArgs) := none
  tlsClientConfig : Option TLSConfig := none

/-- The environment of Go standard-library effects the package reads:
`os.Stat`, `os.ReadFile`, PEM parsing done by `x509.CertPool.AppendCertsFromPEM`
(the certificates extracted from a blob; malformed input yields `[]`),
`os.ReadDir` (a failed listing is the empty list, since the error is ignored
at the call site), `x509.SystemCertPool`, `tls.LoadX509KeyPair`, and the pure
path functions `filepath.Clean` and `filepath.Join`. -/
structure Env where
  stat : String → StatResult
  readFile : String → Except String String
  parsePEM : String → List String
  readDir : String → List DirEntry
  systemCertPool : Except String (List String)
  loadKeyPair : String → String → Except String String
  clean : String → String
  joinPath : String → String → String

/-- Go errors surfaced by this package: the wrapped `ErrCafileNotFound`
condition produced by `validateCaFile` (carrying the offending path), any
other underlying error surfaced verbatim (carrying its message), and the
unknown-URL-prefix error from `NewHTTPClientWithOpts`. -/
inductive GoError where
  | cafileNotFound (path : String) : GoError
  | other (msg : String) : GoError
  | unknownPrefix : GoError
deriving DecidableEq, Repr

/-- The `Error()` message of each modelled error, as Go formats it:
the `fmt.Errorf` wrapping with the cafile path interpolated and
`errors.New("unknown GitLab URL prefix")`. -/
def GoError.message : GoError → String
  | .cafileNotFound p => "cannot find cafile \x27" ++ p ++ "\x27: cafile not found"
  | .other m => m
  | .unknownPrefix => "unknown GitLab URL prefix"

/-- Model of `errors.Is(err, ErrCafileNotFound)`: only the wrapped cafile-not-found
error matches the sentinel. -/
def GoError.isCafileNotFound : GoError → Bool
  | .cafileNotFound _ => true
  | _ => false

/-- Go `strings.HasPrefix` over explicit character lists. -/
def hasPrefixChars : List Char → List Char → Bool
  | _, [] => true
  | [], _ :: _ => false
  | c :: cs, p :: ps => c == p && hasPrefixChars cs ps

/-- Go `strings.HasPrefix s pre`. -/
def hasPrefixGo (s pre : String) : Bool :=
  hasPrefixChars s.data pre.data

/-- Go `strings.TrimPrefix s pre`: drop the prefix when present, else return `s`. -/
def trimPrefixGo (s pre : String) : String :=
  if hasPrefixGo s pre then ⟨s.data.drop pre.data.length⟩ else s

/-- Go `strings.Trim s "/"`: remove all leading and trailing slash characters. -/
def trimSlashGo (s : String) : String :=
  ⟨((s.data.dropWhile fun c => c == '/').reverse.dropWhile fun c => c == '/').reverse⟩

def socketBaseURL : String := "http://unix"
def unixSocketProtocol : String := "http+unix://"
def httpProtocol : String := "http://"
def httpsProtocol : String := "https://"
def defaultReadTimeoutSeconds : Nat := 300

/-- One nanosecond-count second, `time.Second`, as a Go `time.Duration` value. -/
def second : Int := 1000000000

def defaultRetryWaitMinimum : Int := second
def defaultRetryWaitMaximum : Int := 15 * second
def defaultRetryMax : Int := 2

/-- The constant `tls.VersionTLS12`. -/
def versionTLS12 : Nat := 0x0303

/-- The configuration struct `httpClientCfg`. -/
structure httpClientCfg where
  keyPath : String
  certPath : String
  caFile : String
  caPath : String
  retryWaitMin : Int
  retryWaitMax : Int
  retryMax : Int

/-- The method `httpClientCfg.HaveCertAndKey`: both the key path and the cert path are
non-empty. -/
def httpClientCfg.HaveCertAndKey (hcc : httpClientCfg) : Bool :=
  hcc.keyPath != "" && hcc.certPath != ""

/-- The option type `HTTPClientOpt`: Go mutates the config through a pointer; the functional
counterpart maps a config to the updated config. -/
def HTTPClientOpt : Type := httpClientCfg → httpClientCfg

/-- The option `WithClientCert certPath keyPath` sets both key and cert paths. -/
def WithClientCert (certPath keyPath : String) : HTTPClientOpt :=
  fun hcc => { hcc with keyPath := keyPath, certPath := certPath }

/-- The option `WithHTTPRetryOpts waitMin waitMax maxAttempts` sets the three retry fields. -/
def WithHTTPRetryOpts (waitMin waitMax maxAttempts : Int) : HTTPClientOpt :=
  fun hcc => { hcc with retryWaitMin := waitMin, retryWaitMax := waitMax, retryMax := maxAttempts }

/-- The check `validateCaFile`: empty name passes; `os.Stat` not-exist yields the wrapped
`ErrCafileNotFound` carrying the path; any other stat error is returned as is. -/
def validateCaFile (env : Env) (filename : String) : Option GoError :=
  if filename = "" then none
  else
    match env.stat filename with
    | .ok => none
    | .notExist => some (.cafileNotFound filename)
    | .otherError m => some (.other m)

/-- The helper `addCertToPool`: read the file at the cleaned path; on success append the
certificates `AppendCertsFromPEM` extracts from it; on a read error leave the
pool unchanged. -/
def addCertToPool (env : Env) (certPool : List String) (fileName : String) : List String :=
  match env.readFile (env.clean fileName) with
  | .ok cert => certPool ++ env.parsePEM cert
  | .error _ => certPool

/-- The builder `buildSocketTransport`: strip the unix-socket scheme to get the socket
path; the transport's `DialContext` ignores the caller's network and address
arguments and dials `("unix", socketPath)` with the caller's context; the host
is `socketBaseURL`, extended with `"/" ++ root` when the relative URL root is
non-empty after trimming slashes. -/
def buildSocketTransport (gitlabURL gitlabRelativeURLRoot : String) : Transport × String :=
  let socketPath := trimPrefixGo gitlabURL unixSocketProtocol
  let transport : Transport :=
    { dialContext := some fun ctx _ _ => { ctx := ctx, network := "unix", address := socketPath },
      tlsClientConfig := none }
  let root := trimSlashGo gitlabRelativeURLRoot
  let host := if root ≠ "" then socketBaseURL ++ "/" ++ root else socketBaseURL
  (transport, host)

/-- The builder `buildHTTPTransport`: a zero-value transport and the URL unchanged. -/
def buildHTTPTransport (gitlabURL : String) : Transport × String :=
  ({ dialContext := none, tlsClientConfig := none }, gitlabURL)

/-- The builder `buildHTTPSTransport`. In Go it returns a `(transport, host, err)` triple
where `err` is set either by the early return on a key-pair load failure or by
the `x509.SystemCertPool()` call whose error is kept (the pool itself falls
back to `x509.NewCertPool()`) and returned at the end; the caller in
`NewHTTPClientWithOpts` returns that error whenever it is non-nil and discards
the transport, so the triple-plus-check is embedded as `Except`. -/
def buildHTTPSTransport (env : Env) (hcc : httpClientCfg) (gitlabURL : String) :
    Except GoError (Transport × String) :=
  let sysRes := env.systemCertPool
  let basePool : List String := match sysRes with | .ok p => p | .error _ => []
  let pool1 := if hcc.caFile ≠ "" then addCertToPool env basePool hcc.caFile else basePool
  let pool2 :=
    if hcc.caPath ≠ "" then
      (env.readDir hcc.caPath).foldl
        (fun pool fi =>
          if fi.isDir then pool else addCertToPool env pool (env.joinPath hcc.caPath fi.name))
        pool1
    else pool1
  let tlsConfig : TLSConfig := { rootCAs := pool2, minVersion := versionTLS12, certificates := [] }
  match
    (if hcc.HaveCertAndKey then
      match env.loadKeyPair hcc.certPath hcc.keyPath with
      | .ok cert => Except.ok [cert]
      | .error m => Except.error (GoError.other m)
    else Except.ok []) with
  | .error e => .error e
  | .ok certs =>
    match sysRes with
    | .error m => .error (GoError.other m)
    | .ok _ =>
      .ok ({ dialContext := none,
             tlsClientConfig := some { tlsConfig with certificates := certs } }, gitlabURL)

/-- Interpret a `Nat` as the Go `uint64`-to-`int64` conversion result. -/
def toInt64 (n : Nat) : Int :=
  let m : Nat := n % 2 ^ 64
  if m < 2 ^ 63 then (m : Int) else (m : Int) - 2 ^ 64

/-- Wrap an integer into the Go `int64` range, as Go's wrapping arithmetic does. -/
def wrap64 (i : Int) : Int :=
  let m := i % 2 ^ 64
  if m < 2 ^ 63 then m else m - 2 ^ 64

/-- The helper `readTimeout`: substitute the 300 s default for `0`, then compute
`time.Duration(timeoutSeconds) * time.Second` with Go's int64 conversion and
wrapping multiplication. -/
def readTimeout (timeoutSeconds : Nat) : Int :=
  let ts : Nat := timeoutSeconds % 2 ^ 64
  let ts : Nat := if ts = 0 then defaultReadTimeoutSeconds else ts
  wrap64 (toInt64 ts * second)

/-- Modelled from the spec: `NewTransport` (defined outside this fragment)
wraps the built transport, installing it as the underlying transport of the
client; only the wrapped transport is observable here. -/
structure WrappedTransport where
  inner : Transport

/-- Modelled from the spec: `NewTransport` installs the built transport as the
underlying transport; its own decoration code is outside this fragment. -/
def NewTransport (t : Transport) : WrappedTransport := ⟨t⟩

/-- The fields of `retryablehttp.Client` that `NewHTTPClientWithOpts` sets:
retry ceiling and wait bounds, the nil logger, the wrapped transport, and the
overall request timeout of the inner `http.Client`. -/
structure RetryableClient where
  retryMax : Int
  retryWaitMin : Int
  retryWaitMax : Int
  loggerIsNil : Bool
  transport : WrappedTransport
  timeout : Int

/-- The result type `HTTPClient`: the retrying client plus the effective host string. -/
structure HTTPClient where
  retryableHTTP : RetryableClient
  host : String

/-- The seed configuration plus the option fold of `NewHTTPClientWithOpts`
(lines 88-98): defaults for the retry fields, parameters for the CA fields,
then each option applied in order. -/
def resolveCfg (caFile caPath : String) (opts : List HTTPClientOpt) : httpClientCfg :=
  opts.foldl (fun c opt => opt c)
    { keyPath := "", certPath := "", caFile := caFile, caPath := caPath,
      retryWaitMin := defaultRetryWaitMinimum,
      retryWaitMax := defaultRetryWaitMaximum,
      retryMax := defaultRetryMax }

/-- The scheme dispatch of `NewHTTPClientWithOpts` (lines 103-119): the three
prefixes tried in order; the HTTPS branch validates the CA file first and
aborts on its error; any other prefix is the unknown-prefix error. -/
def selectTransport (env : Env) (hcc : httpClientCfg)
    (gitlabURL gitlabRelativeURLRoot caFile : String) :
    Except GoError (Transport × String) :=
  if hasPrefixGo gitlabURL unixSocketProtocol then
    .ok (buildSocketTransport gitlabURL gitlabRelativeURLRoot)
  else if hasPrefixGo gitlabURL httpProtocol then
    .ok (buildHTTPTransport gitlabURL)
  else if hasPrefixGo gitlabURL httpsProtocol then
    match validateCaFile env caFile with
    | some e => .error e
    | none => buildHTTPSTransport env hcc gitlabURL
  else .error .unknownPrefix

/-- The client assembly of `NewHTTPClientWithOpts` (lines 121-131):
`retryablehttp.NewClient()` with retry fields from the config, the logger set
to nil, the wrapped transport installed, and the timeout from `readTimeout`. -/
def assembleClient (hcc : httpClientCfg) (readTimeoutSeconds : Nat)
    (transport : Transport) (host : String) : HTTPClient :=
  { retryableHTTP :=
      { retryMax := hcc.retryMax,
        retryWaitMax := hcc.retryWaitMax,
        retryWaitMin := hcc.retryWaitMin,
        loggerIsNil := true,
        transport := NewTransport transport,
        timeout := readTimeout readTimeoutSeconds },
    host := host }

/-- The constructor `NewHTTPClientWithOpts`: resolve the configuration, dispatch on the URL
scheme (propagating any error with no client), and assemble the retrying
client with the effective host. -/
def NewHTTPClientWithOpts (env : Env) (gitlabURL gitlabRelativeURLRoot caFile caPath : String)
    (readTimeoutSeconds : Nat) (opts : List HTTPClientOpt) : Except GoError HTTPClient :=
  let hcc := resolveCfg caFile caPath opts
  match selectTransport env hcc gitlabURL gitlabRelativeURLRoot caFile with
  | .error e => .error e
  | .ok (transport, host) => .ok (assembleClient hcc readTimeoutSeconds transport host)

/-- The effective host of a construction result, when a client was produced. -/
def hostOf : Except GoError HTTPClient → Option String
  | .ok c => some c.host
  | .error _ => none

/-- The overall request timeout of a construction result. -/
def timeoutOf : Except GoError HTTPClient → Option Int
  | .ok c => some c.retryableHTTP.timeout
  | .error _ => none

/-- The retry policy `(waitMin, waitMax, retryMax)` of a construction result. -/
def retryOf : Except GoError HTTPClient → Option (Int × Int × Int)
  | .ok c => some (c.retryableHTTP.retryWaitMin, c.retryableHTTP.retryWaitMax,
      c.retryableHTTP.retryMax)
  | .error _ => none

/-- The custom dialer of a construction result's transport, when present. -/
def dialOf : Except GoError HTTPClient → Option (Nat → String → String → DialArgs)
  | .ok c => c.retryableHTTP.transport.inner.dialContext
  | .error _ => none

/-- The client-certificate list of a construction result's TLS configuration. -/
def certsOf : Except GoError HTTPClient → Option (List String)
  | .ok c =>
    match c.retryableHTTP.transport.inner.tlsClientConfig with
    | some t => some t.certificates
    | none => none
  | .error _ => none

/-- The root-CA pool of a construction result's TLS configuration. -/
def rootsOf : Except GoError HTTPClient → Option (List String)
  | .ok c =>
    match c.retryableHTTP.transport.inner.tlsClientConfig with
    | some t => some t.rootCAs
    | none => none
  | .error _ => none

/-- Whether construction returned a client and no error. -/
def isOkClient : Except GoError HTTPClient → Bool
  | .ok _ => true
  | .error _ => false

/-- A benign environment: every stat succeeds, reads fail, listings are empty,
the system pool is available and empty, key-pair loads fail, paths pass
through unchanged. -/
def envPure : Env :=
  { stat := fun _ => .ok,
    readFile := fun _ => .error "read error",
    parsePEM := fun _ => [],
    readDir := fun _ => [],
    systemCertPool := .ok [],
    loadKeyPair := fun _ _ => .error "load failed",
    clean := fun s => s,
    joinPath := fun a b => a ++ "/" ++ b }

/-- An environment where every stat reports not-exist. -/
def envMissingCa : Env :=
  { envPure with stat := fun _ => .notExist }

/-- An environment where the system certificate pool is unavailable. -/
def envNoSysPool : Env :=
  { envPure with systemCertPool := .error "system cert pool unavailable" }

/-- A URL beginning with `https://` does not begin with `http+unix://` or
`http://`: the fifth character differs. -/
theorem hasPrefix_https_disjoint (s : String) (h : hasPrefixGo s httpsProtocol = true) :
    hasPrefixGo s unixSocketProtocol = false ∧ hasPrefixGo s httpProtocol = false := by
  obtain ⟨l⟩ := s
  have hd1 : httpsProtocol.data = ['h','t','t','p','s',':','/','/'] := rfl
  have hd2 : unixSocketProtocol.data = ['h','t','t','p','+','u','n','i','x',':','/','/'] := rfl
  have hd3 : httpProtocol.data = ['h','t','t','p',':','/','/'] := rfl
  simp only [hasPrefixGo, hd1, hd2, hd3] at h ⊢
  rcases l with _ | ⟨c1, _ | ⟨c2, _ | ⟨c3, _ | ⟨c4, _ | ⟨c5, rest⟩⟩⟩⟩⟩ <;>
    simp_all [hasPrefixChars]

/-- A URL beginning with `http://` does not begin with `http+unix://`. -/
theorem hasPrefix_http_not_unix (s : String) (h : hasPrefixGo s httpProtocol = true) :
    hasPrefixGo s unixSocketProtocol = false := by
  obtain ⟨l⟩ := s
  have hd2 : unixSocketProtocol.data = ['h','t','t','p','+','u','n','i','x',':','/','/'] := rfl
  have hd3 : httpProtocol.data = ['h','t','t','p',':','/','/'] := rfl
  simp only [hasPrefixGo, hd2, hd3] at h ⊢
  rcases l with _ | ⟨c1, _ | ⟨c2, _ | ⟨c3, _ | ⟨c4, _ | ⟨c5, rest⟩⟩⟩⟩⟩ <;>
    simp_all [hasPrefixChars]

/-- C1: for every `https://` URL and non-empty `caFile` whose stat reports
not-exist, construction fails with the wrapped cafile-not-found error carrying
the offending path (matchable as that condition) and returns no client; the
environment's TLS-related components (system pool, directory scan, key-pair
loader) are arbitrary, so the error is surfaced before any TLS state is
built. -/
theorem missing_cafile_fails (env : Env) (url root caFile caPath : String) (ts : Nat)
    (opts : List HTTPClientOpt)
    (hurl : hasPrefixGo url httpsProtocol = true)
    (hca : caFile ≠ "")
    (hstat : env.stat caFile = .notExist) :
    NewHTTPClientWithOpts env url root caFile caPath ts opts
      = .error (GoError.cafileNotFound caFile)
    ∧ (GoError.cafileNotFound caFile).isCafileNotFound = true := by
  obtain ⟨hu, hh⟩ := hasPrefix_https_disjoint url hurl
  refine ⟨?_, rfl⟩
  simp [NewHTTPClientWithOpts, selectTransport, hu, hh, hurl, validateCaFile, hca, hstat]

/-- C1 witness: a concrete missing CA file on a concrete `https://` URL. -/
theorem missing_cafile_fails_witness :
    NewHTTPClientWithOpts envMissingCa "https://gitlab.example.com" "" "/etc/ssl/ca.pem" "" 0 []
      = .error (GoError.cafileNotFound "/etc/ssl/ca.pem")
    ∧ (GoError.cafileNotFound "/etc/ssl/ca.pem").isCafileNotFound = true :=
  missing_cafile_fails envMissingCa "https://gitlab.example.com" "" "/etc/ssl/ca.pem" "" 0 []
    (by decide) (by decide) rfl

/-- C5 counterexample: at the unrecognized URL `ftp://host` construction does
fail, but the error message is `unknown GitLab URL prefix`, not the claimed
`unknown target URL prefix`. -/
theorem unknown_prefix_counterexample :
    NewHTTPClientWithOpts envPure "ftp://host" "" "" "" 0 [] = .error GoError.unknownPrefix
    ∧ GoError.message GoError.unknownPrefix ≠ "unknown target URL prefix" :=
  ⟨rfl, by decide⟩

/-- C5 (amended): a URL matching none of the three prefixes (tried in order)
yields the unknown-prefix error, whose message is `unknown GitLab URL prefix`,
and no client. -/
theorem unknown_prefix_error (env : Env) (url root caFile caPath : String) (ts : Nat)
    (opts : List HTTPClientOpt)
    (h1 : hasPrefixGo url unixSocketProtocol = false)
    (h2 : hasPrefixGo url httpProtocol = false)
    (h3 : hasPrefixGo url httpsProtocol = false) :
    NewHTTPClientWithOpts env url root caFile caPath ts opts = .error GoError.unknownPrefix
    ∧ GoError.message GoError.unknownPrefix = "unknown GitLab URL prefix" := by
  refine ⟨?_, rfl⟩
  simp [NewHTTPClientWithOpts, selectTransport, h1, h2, h3]

/-- C5 witness: the amended statement at the concrete URL `ftp://host`. -/
theorem unknown_prefix_error_witness :
    NewHTTPClientWithOpts envPure "ftp://host" "" "" "" 0 [] = .error GoError.unknownPrefix
    ∧ GoError.message GoError.unknownPrefix = "unknown GitLab URL prefix" :=
  unknown_prefix_error envPure "ftp://host" "" "" "" 0 []
    (by decide) (by decide) (by decide)

/-- C10: for every `http://` or `http+unix://` URL, construction succeeds for
every environment (in particular with a nonexistent `caFile` or a broken
key-pair loader), every `caFile`/`caPath`, and every option list: the CA-file
check and the key-pair load happen only on the `https://` branch. -/
theorem non_tls_always_succeeds (env : Env) (url root caFile caPath : String) (ts : Nat)
    (opts : List HTTPClientOpt)
    (h : hasPrefixGo url unixSocketProtocol = true ∨ hasPrefixGo url httpProtocol = true) :
    isOkClient (NewHTTPClientWithOpts env url root caFile caPath ts opts) = true := by
  rcases h with h | h
  · simp [NewHTTPClientWithOpts, selectTransport, h, isOkClient]
  · have hu := hasPrefix_http_not_unix url h
    simp [NewHTTPClientWithOpts, selectTransport, h, hu, isOkClient]

/-- C10 witness: a socket URL with a missing CA file, a CA directory, and a
client-cert option still constructs a client. -/
theorem non_tls_always_succeeds_witness :
    isOkClient (NewHTTPClientWithOpts envMissingCa "http+unix:///var/run/gitlab.sock" ""
      "/missing/ca.pem" "/missing/cadir" 0 [WithClientCert "/missing/cert" "/missing/key"])
      = true :=
  non_tls_always_succeeds envMissingCa "http+unix:///var/run/gitlab.sock" ""
    "/missing/ca.pem" "/missing/cadir" 0 [WithClientCert "/missing/cert" "/missing/key"]
    (Or.inl (by decide))

/-- C2: at a concrete `https://` URL with no CA material or client certificate
configured, an unavailable system certificate pool makes construction return
the pool's error and no client, although `buildHTTPSTransport` has already
fallen back to an empty pool: the error kept from `x509.SystemCertPool()` is
returned at the end of `buildHTTPSTransport` and surfaced by
`NewHTTPClientWithOpts`, contradicting the fallback's evident purpose. -/
theorem syspool_error_surfaced :
    NewHTTPClientWithOpts envNoSysPool "https://gitlab.example.com" "" "" "" 0 []
      = .error (GoError.other "system cert pool unavailable") := rfl

/-- C3: for every `http+unix://` URL the constructed client's transport has a
dialer that ignores the network and address arguments and always dials the
path obtained by stripping the `http+unix://` prefix, as a `unix` domain
socket, with the caller's context. -/
theorem socket_dialer_fixed_path (env : Env) (url root caFile caPath : String) (ts : Nat)
    (opts : List HTTPClientOpt)
    (hurl : hasPrefixGo url unixSocketProtocol = true) :
    dialOf (NewHTTPClientWithOpts env url root caFile caPath ts opts)
      = some (fun ctx _ _ =>
          { ctx := ctx, network := "unix",
            address := trimPrefixGo url unixSocketProtocol }) := by
  simp [NewHTTPClientWithOpts, selectTransport, hurl, buildSocketTransport, dialOf,
    assembleClient, NewTransport]

/-- C3 witness: the dialer for a concrete socket URL, applied to a concrete
context and unrelated network and address arguments, dials the embedded
path. -/
theorem socket_dialer_fixed_path_witness :
    dialOf (NewHTTPClientWithOpts envPure "http+unix:///var/run/gitlab.sock" "" "" "" 0 [])
      = some (fun ctx _ _ =>
          { ctx := ctx, network := "unix", address := "/var/run/gitlab.sock" }) :=
  socket_dialer_fixed_path envPure "http+unix:///var/run/gitlab.sock" "" "" "" 0 []
    (by decide)

/-- Any `ok` result of `buildHTTPSTransport` carries the URL unchanged as its
host. -/
theorem buildHTTPSTransport_host (env : Env) (hcc : httpClientCfg) (url : String)
    (th : Transport × String) (h : buildHTTPSTransport env hcc url = .ok th) :
    th.2 = url := by
  unfold buildHTTPSTransport at h
  dsimp only at h
  cases hsys : env.systemCertPool with
  | error m =>
    rw [hsys] at h
    dsimp only at h
    split at h
    · exact absurd h (by simp)
    · exact absurd h (by simp)
  | ok p =>
    rw [hsys] at h
    dsimp only at h
    split at h
    · exact absurd h (by simp)
    · simp only [Except.ok.injEq] at h
      rw [← h]

/-- C4: case split on the URL prefix: for `http+unix://` the effective host is
`http://unix`, extended with `/` and the slash-trimmed relative root when that
is non-empty; for `http://` the host is the URL unchanged; for `https://`,
whenever a client is produced its host is the URL unchanged. -/
theorem effective_host_cases (env : Env) (url root caFile caPath : String) (ts : Nat)
    (opts : List HTTPClientOpt) :
    (hasPrefixGo url unixSocketProtocol = true →
      hostOf (NewHTTPClientWithOpts env url root caFile caPath ts opts)
        = some (if trimSlashGo root = "" then "http://unix"
                else "http://unix/" ++ trimSlashGo root))
    ∧ (hasPrefixGo url httpProtocol = true →
      hostOf (NewHTTPClientWithOpts env url root caFile caPath ts opts) = some url)
    ∧ (hasPrefixGo url httpsProtocol = true →
      ∀ s, hostOf (NewHTTPClientWithOpts env url root caFile caPath ts opts) = some s →
        s = url) := by
  refine ⟨?_, ?_, ?_⟩
  · intro h
    by_cases hr : trimSlashGo root = "" <;>
      simp [NewHTTPClientWithOpts, selectTransport, h, buildSocketTransport, hostOf,
        assembleClient, hr, socketBaseURL]
  · intro h
    have hu := hasPrefix_http_not_unix url h
    simp [NewHTTPClientWithOpts, selectTransport, h, hu, buildHTTPTransport, hostOf,
      assembleClient]
  · intro h s hs
    obtain ⟨hu, hh⟩ := hasPrefix_https_disjoint url h
    simp only [NewHTTPClientWithOpts, selectTransport, hu, hh, h, Bool.false_eq_true,
      if_false, if_true] at hs
    rcases hv : validateCaFile env caFile with _ | e
    · rw [hv] at hs
      rcases hb : buildHTTPSTransport env (resolveCfg caFile caPath opts) url with e | th
      · rw [hb] at hs
        simp [hostOf] at hs
      · rw [hb] at hs
        have := buildHTTPSTransport_host env (resolveCfg caFile caPath opts) url th hb
        simp [hostOf, assembleClient] at hs
        rw [← hs, this]
    · rw [hv] at hs
      simp [hostOf] at hs

/-- C4 witness: a concrete socket URL with relative root `/gitlab/` produces
the effective host `http://unix/gitlab`. -/
theorem effective_host_cases_witness :
    hostOf (NewHTTPClientWithOpts envPure "http+unix:///var/run/gitlab.sock" "/gitlab/"
      "" "" 0 []) = some "http://unix/gitlab" := by
  have h := (effective_host_cases envPure "http+unix:///var/run/gitlab.sock" "/gitlab/"
    "" "" 0 []).1 (by decide)
  simpa using h

/-- Any construction that returns a client gives it the timeout
`readTimeout n` for the supplied read-timeout `n`. -/
theorem timeoutOf_ok (env : Env) (url root caFile caPath : String) (n : Nat)
    (opts : List HTTPClientOpt)
    (hok : isOkClient (NewHTTPClientWithOpts env url root caFile caPath n opts) = true) :
    timeoutOf (NewHTTPClientWithOpts env url root caFile caPath n opts)
      = some (readTimeout n) := by
  unfold NewHTTPClientWithOpts at hok ⊢
  dsimp only at hok ⊢
  cases hsel : selectTransport env (resolveCfg caFile caPath opts) url root caFile with
  | error e =>
    rw [hsel] at hok
    simp [isOkClient] at hok
  | ok th =>
    obtain ⟨t, hst⟩ := th
    simp [timeoutOf, assembleClient]

/-- The function `wrap64` is the identity on the int64 range. -/
theorem wrap64_eq_of_lt (i : Int) (h0 : 0 ≤ i) (h1 : i < 2 ^ 63) : wrap64 i = i := by
  unfold wrap64
  dsimp only
  have hm : i % 2 ^ 64 = i := Int.emod_eq_of_lt h0 (lt_trans h1 (by norm_num))
  rw [hm, if_pos h1]

/-- The function `toInt64` is the inclusion below `2 ^ 63`. -/
theorem toInt64_eq_of_lt (n : Nat) (h : n < 2 ^ 63) : toInt64 n = n := by
  unfold toInt64
  dsimp only
  have h64 : n % 2 ^ 64 = n := Nat.mod_eq_of_lt (by omega)
  rw [h64, if_pos h]

/-- Without overflow, `readTimeout` is the documented policy: the value in
seconds, with 300 substituted for zero. -/
theorem readTimeout_eq (n : Nat) (hn : (n : Int) * second < 2 ^ 63) :
    readTimeout n = (if n = 0 then 300 else (n : Int)) * second := by
  have hn63 : n < 2 ^ 63 := by
    rcases Nat.eq_zero_or_pos n with h0 | hpos
    · subst h0; decide
    · have hone : (1 : Int) ≤ second := by norm_num [second]
      have h1 : (n : Int) ≤ (n : Int) * second :=
        le_mul_of_one_le_right (by exact_mod_cast Nat.zero_le n) hone
      have h2 : (n : Int) < 2 ^ 63 := lt_of_le_of_lt h1 hn
      exact_mod_cast h2
  have hn64 : n < 2 ^ 64 := by omega
  by_cases h0 : n = 0
  · subst h0; decide
  · unfold readTimeout
    dsimp only
    rw [Nat.mod_eq_of_lt hn64, if_neg h0, if_neg h0, toInt64_eq_of_lt n hn63]
    exact wrap64_eq_of_lt _
      (mul_nonneg (by exact_mod_cast Nat.zero_le n) (by norm_num [second])) hn

/-- C6 counterexample: at a read-timeout of `10 ^ 10` seconds the constructed
client's timeout is not `10 ^ 10` seconds: the Go duration arithmetic wraps
int64 and produces a negative value. -/
theorem read_timeout_counterexample :
    timeoutOf (NewHTTPClientWithOpts envPure "http://host" "" "" "" (10 ^ 10) [])
      ≠ some ((10 ^ 10 : Int) * second) := by decide

/-- C6 (amended): whenever a client is constructed and the read-timeout `n`
satisfies `n * second < 2 ^ 63` (no int64 overflow), the client's timeout is
`n` seconds for non-zero `n` and 300 seconds for `n = 0`. -/
theorem read_timeout_policy (env : Env) (url root caFile caPath : String)
    (opts : List HTTPClientOpt) (n : Nat)
    (hn : (n : Int) * second < 2 ^ 63)
    (hok : isOkClient (NewHTTPClientWithOpts env url root caFile caPath n opts) = true) :
    timeoutOf (NewHTTPClientWithOpts env url root caFile caPath n opts)
      = some ((if n = 0 then 300 else (n : Int)) * second) := by
  rw [timeoutOf_ok env url root caFile caPath n opts hok, readTimeout_eq n hn]

/-- C6 witness: read-timeout 10 yields a 10-second timeout and read-timeout 0
yields the 300-second default. -/
theorem read_timeout_policy_witness :
    timeoutOf (NewHTTPClientWithOpts envPure "http://host" "" "" "" 10 [])
      = some (10 * second)
    ∧ timeoutOf (NewHTTPClientWithOpts envPure "http://host" "" "" "" 0 [])
      = some (300 * second) := by
  constructor
  · have h := read_timeout_policy envPure "http://host" "" "" "" [] 10 (by decide) (by decide)
    simpa using h
  · have h := read_timeout_policy envPure "http://host" "" "" "" [] 0 (by decide) (by decide)
    simpa using h

/-- C7: the configuration is seeded with the retry defaults `(1 s, 15 s, 2)`;
a retry option replaces all three values; applying the retry option twice
keeps the values of the second application (last-writer-wins). -/
theorem retry_opts_last_writer_wins (env : Env) (url root caFile caPath : String) (ts : Nat)
    (a b m a2 b2 m2 : Int)
    (hurl : hasPrefixGo url httpProtocol = true) :
    retryOf (NewHTTPClientWithOpts env url root caFile caPath ts []) =
        some (defaultRetryWaitMinimum, defaultRetryWaitMaximum, defaultRetryMax)
    ∧ retryOf (NewHTTPClientWithOpts env url root caFile caPath ts [WithHTTPRetryOpts a b m]) =
        some (a, b, m)
    ∧ retryOf (NewHTTPClientWithOpts env url root caFile caPath ts
          [WithHTTPRetryOpts a b m, WithHTTPRetryOpts a2 b2 m2]) =
        some (a2, b2, m2) := by
  have hu := hasPrefix_http_not_unix url hurl
  refine ⟨?_, ?_, ?_⟩ <;>
    simp [NewHTTPClientWithOpts, selectTransport, hurl, hu, resolveCfg, retryOf,
      assembleClient, WithHTTPRetryOpts, buildHTTPTransport]

/-- C7 witness: the retry option `(2 s, 20 s, 5)` overrides the defaults
`(1 s, 15 s, 2)`, and a second application wins over the first. -/
theorem retry_opts_last_writer_wins_witness :
    retryOf (NewHTTPClientWithOpts envPure "http://host" "" "" "" 0 []) =
        some (defaultRetryWaitMinimum, defaultRetryWaitMaximum, defaultRetryMax)
    ∧ retryOf (NewHTTPClientWithOpts envPure "http://host" "" "" "" 0
          [WithHTTPRetryOpts (2 * second) (20 * second) 5]) =
        some (2 * second, 20 * second, 5)
    ∧ retryOf (NewHTTPClientWithOpts envPure "http://host" "" "" "" 0
          [WithHTTPRetryOpts (2 * second) (20 * second) 5,
           WithHTTPRetryOpts (3 * second) (30 * second) 7]) =
        some (3 * second, 30 * second, 7) :=
  retry_opts_last_writer_wins envPure "http://host" "" "" "" 0
    (2 * second) (20 * second) 5 (3 * second) (30 * second) 7 (by decide)

/-- C8: on an `https://` URL with validation passing and the system pool
available, the client certificate is attached iff both `certPath` and
`keyPath` are non-empty: a valid pair with both set gives a non-empty
certificate list, while with at most one set the list stays empty and the
key-pair loader is never consulted (its behavior is arbitrary), so no error
arises for that reason. -/
theorem client_cert_both_or_neither (env : Env) (url root caFile caPath certPath keyPath : String)
    (ts : Nat) (sys : List String) (cert : String)
    (hurl : hasPrefixGo url httpsProtocol = true)
    (hval : validateCaFile env caFile = none)
    (hsys : env.systemCertPool = .ok sys) :
    (certPath ≠ "" → keyPath ≠ "" → env.loadKeyPair certPath keyPath = .ok cert →
      certsOf (NewHTTPClientWithOpts env url root caFile caPath ts
          [WithClientCert certPath keyPath]) = some [cert])
    ∧ ((certPath = "" ∨ keyPath = "") →
      certsOf (NewHTTPClientWithOpts env url root caFile caPath ts
          [WithClientCert certPath keyPath]) = some []) := by
  obtain ⟨hu, hh⟩ := hasPrefix_https_disjoint url hurl
  constructor
  · intro hc hk hload
    simp [NewHTTPClientWithOpts, selectTransport, hu, hh, hurl, hval, resolveCfg,
      WithClientCert, buildHTTPSTransport, hsys, httpClientCfg.HaveCertAndKey, hc, hk, hload,
      certsOf, assembleClient, NewTransport]
  · intro hck
    rcases hck with hc | hk
    · subst hc
      simp [NewHTTPClientWithOpts, selectTransport, hu, hh, hurl, hval, resolveCfg,
        WithClientCert, buildHTTPSTransport, hsys, httpClientCfg.HaveCertAndKey,
        certsOf, assembleClient, NewTransport]
    · subst hk
      simp [NewHTTPClientWithOpts, selectTransport, hu, hh, hurl, hval, resolveCfg,
        WithClientCert, buildHTTPSTransport, hsys, httpClientCfg.HaveCertAndKey,
        certsOf, assembleClient, NewTransport]

/-- An environment with a loadable client key pair at fixed paths. -/
def envKeyPair : Env :=
  { envPure with
    loadKeyPair := fun c k =>
      if c = "/etc/gitlab/cert.pem" ∧ k = "/etc/gitlab/key.pem" then .ok "CLIENTCERT"
      else .error "load failed" }

/-- C8 witness: a valid concrete pair attaches exactly one certificate, and
supplying only the cert path attaches none. -/
theorem client_cert_both_or_neither_witness :
    certsOf (NewHTTPClientWithOpts envKeyPair "https://gitlab.example.com" "" "" "" 0
        [WithClientCert "/etc/gitlab/cert.pem" "/etc/gitlab/key.pem"]) = some ["CLIENTCERT"]
    ∧ certsOf (NewHTTPClientWithOpts envKeyPair "https://gitlab.example.com" "" "" "" 0
        [WithClientCert "/etc/gitlab/cert.pem" ""]) = some [] := by
  constructor
  · exact (client_cert_both_or_neither envKeyPair "https://gitlab.example.com" "" "" ""
      "/etc/gitlab/cert.pem" "/etc/gitlab/key.pem" 0 [] "CLIENTCERT"
      (by decide) rfl rfl).1 (by decide) (by decide) rfl
  · exact (client_cert_both_or_neither envKeyPair "https://gitlab.example.com" "" "" ""
      "/etc/gitlab/cert.pem" "" 0 [] "CLIENTCERT"
      (by decide) rfl rfl).2 (Or.inr rfl)

/-- C9: on an `https://` URL with no `caFile` and a `caPath` whose listing
holds one readable well-formed PEM file, one unreadable-or-malformed file, and
one subdirectory, construction succeeds and the trust pool is the system pool
plus exactly the certificate of the valid file; the bad entry and the
subdirectory are skipped without error. -/
theorem capath_best_effort_scan (env : Env) (url root caPath : String) (ts : Nat)
    (sys : List String) (goodName badName subName goodPEM goodCert : String)
    (hurl : hasPrefixGo url httpsProtocol = true)
    (hcap : caPath ≠ "")
    (hsys : env.systemCertPool = .ok sys)
    (hdir : env.readDir caPath =
      [{ name := goodName, isDir := false },
       { name := badName, isDir := false },
       { name := subName, isDir := true }])
    (hgood : env.readFile (env.clean (env.joinPath caPath goodName)) = .ok goodPEM)
    (hgoodParse : env.parsePEM goodPEM = [goodCert])
    (hbad : (∃ em, env.readFile (env.clean (env.joinPath caPath badName)) = .error em)
        ∨ (∃ badPEM, env.readFile (env.clean (env.joinPath caPath badName)) = .ok badPEM
            ∧ env.parsePEM badPEM = [])) :
    isOkClient (NewHTTPClientWithOpts env url root "" caPath ts []) = true
    ∧ rootsOf (NewHTTPClientWithOpts env url root "" caPath ts [])
      = some (sys ++ [goodCert]) := by
  obtain ⟨hu, hh⟩ := hasPrefix_https_disjoint url hurl
  have hstep1 : addCertToPool env sys (env.joinPath caPath goodName) = sys ++ [goodCert] := by
    simp [addCertToPool, hgood, hgoodParse]
  have hstep2 : addCertToPool env (sys ++ [goodCert]) (env.joinPath caPath badName)
      = sys ++ [goodCert] := by
    rcases hbad with ⟨em, he⟩ | ⟨bp, hb, hp⟩
    · simp [addCertToPool, he]
    · simp [addCertToPool, hb, hp]
  constructor <;>
    simp [NewHTTPClientWithOpts, selectTransport, hu, hh, hurl, validateCaFile, resolveCfg,
      buildHTTPSTransport, hsys, hcap, hdir, hstep1, hstep2,
      httpClientCfg.HaveCertAndKey, isOkClient, rootsOf, assembleClient, NewTransport]

/-- An environment whose CA directory holds a good PEM file, a malformed file,
and a subdirectory. -/
def envDirScan : Env :=
  { envPure with
    readDir := fun p =>
      if p = "/etc/gitlab/ca" then
        [{ name := "good.pem", isDir := false },
         { name := "bad.pem", isDir := false },
         { name := "sub", isDir := true }]
      else [],
    readFile := fun p =>
      if p = "/etc/gitlab/ca/good.pem" then .ok "GOODPEM"
      else if p = "/etc/gitlab/ca/bad.pem" then .ok "BADPEM"
      else .error "unreadable",
    parsePEM := fun c => if c = "GOODPEM" then ["GOODCERT"] else [] }

/-- C9 witness: the concrete directory scan yields exactly the good file's
certificate and a constructed client. -/
theorem capath_best_effort_scan_witness :
    isOkClient (NewHTTPClientWithOpts envDirScan "https://gitlab.example.com" "" ""
      "/etc/gitlab/ca" 0 []) = true
    ∧ rootsOf (NewHTTPClientWithOpts envDirScan "https://gitlab.example.com" "" ""
      "/etc/gitlab/ca" 0 []) = some ["GOODCERT"] := by
  have h := capath_best_effort_scan envDirScan "https://gitlab.example.com" "" "/etc/gitlab/ca"
    0 [] "good.pem" "bad.pem" "sub" "GOODPEM" "GOODCERT"
    (by decide) (by decide) rfl rfl rfl rfl (Or.inr ⟨"BADPEM", rfl, rfl⟩)
  simpa using h

end GitlabClient
